import Mathlib

/-!
Shallow embedding of the `rnw` microblog client (`core.py`, `telegraph.py`,
`rnw.py`): the naming scheme, existence probe, total-count discovery,
list-cache and feed assembler, with the remote page store (telegra.ph) and the
JSON serializer modelled as explicit parameters.  Machine-level effects
(HTTP, wall clock) are made explicit: the current UTC date string
(`strftime("%m-%d")`) is passed as an argument, and every fallible remote call
returns an `Except`.
-/

namespace Rnw

/-- A remote page record, as consumed by `core.py`.  `content` models the
string `page["content"][0]["children"][0]` when it is extractable, `none`
when the field is absent/empty or not of that shape; `description` is the
page's description field (`none` models absent or empty, which Python
truthiness treats alike). -/
structure Page where
  author_name : Option String
  description : Option String
  content : Option String
deriving DecidableEq, Repr

/-- A feed entry as built by `readlist_stream`
(`{"name": ..., "content": ...}`). -/
structure Post where
  name : String
  content : String
deriving DecidableEq, Repr

/-- Failure modes of a remote page fetch: telegra.ph not-found, a network
error, or a malformed response (`TelegraphException` in `telegraph.py`). -/
inductive FetchError
  | notFound
  | networkError
  | malformedResponse
deriving DecidableEq, Repr

/-- The Remote Page Store, an external collaborator: `get_page` by address
either returns a page or fails. -/
abbrev Remote := String → Except FetchError Page

/-! ### Naming scheme (`core.py` lines 14-17, `urllib.parse.quote`) -/

/-- UTF-8 bytes of a character (as `Nat`s below 256). -/
def utf8Bytes (c : Char) : List Nat :=
  let n := c.toNat
  if n < 128 then [n]
  else if n < 2048 then [192 + n / 64, 128 + n % 64]
  else if n < 65536 then [224 + n / 4096, 128 + n / 64 % 64, 128 + n % 64]
  else [240 + n / 262144, 128 + n / 4096 % 64, 128 + n / 64 % 64, 128 + n % 64]

/-- Uppercase hex digit, as used by `urllib.parse.quote`. -/
def hexUpper (n : Nat) : Char :=
  if n < 10 then Char.ofNat (48 + n) else Char.ofNat (55 + n)

/-- Characters `urllib.parse.quote` leaves unescaped with the default
`safe='/'`: ASCII letters, digits, `_ . - ~` and `/`. -/
def isQuoteSafe (c : Char) : Bool :=
  c.isAlpha || c.isDigit || c = '_' || c = '.' || c = '-' || c = '~' || c = '/'

/-- Percent-encoding of one character: kept verbatim when safe, otherwise
each UTF-8 byte becomes `%XX` with uppercase hex. -/
def quoteChar (c : Char) : List Char :=
  if isQuoteSafe c then [c]
  else (utf8Bytes c).foldr (fun b acc => '%' :: hexUpper (b / 16) :: hexUpper (b % 16) :: acc) []

/-- Percent-encoding of a character list. -/
def quoteList : List Char → List Char
  | [] => []
  | c :: cs => quoteChar c ++ quoteList cs

/-- `urllib.parse.quote` with its default `safe='/'`. -/
def quote (s : String) : String := String.mk (quoteList s.data)

/-- `generate_url` (`core.py` 14-17): percent-quotes the type name, appends
the current UTC date, and appends `-{index}` only when `index > 1`.  The
date is received as the already-formatted `MM-DD` string. -/
def generate_url (type_name : String) (index : Nat) (date : String) : String :=
  let suffix : String := if index > 1 then "-" ++ toString index else ""
  "rnw" ++ quote type_name ++ "-" ++ date ++ suffix

/-- Address of the post page for `(channel, index)`:
`generate_url(f"post{channel or ''}", i)` as in `read` / `find_total_posts`. -/
def postUrl (channel : Option String) (index : Nat) (date : String) : String :=
  generate_url ("post" ++ channel.getD "") index date

/-! ### Existence probe and total-count discovery (`core.py` 33-60) -/

/-- The existence probe `valid` nested in `find_total_posts`: fetch the post
page and collapse every failure into `false`; it is a total `Bool` function,
so no error escapes it. -/
def valid (remote : Remote) (channel : Option String) (date : String) (i : Nat) : Bool :=
  match remote (postUrl channel i date) with
  | .ok _ => true
  | .error _ => false

/-- The body of the binary-search loop of `find_total_posts`
(`core.py` 54-59): `while left < right: mid = (left+right)//2;
if valid(mid): left = mid+1 else: right = mid`.  The loop guard is the
source's `left < right`; the structural `fuel` argument is only a bound on
the iteration count (each iteration shrinks `right - left`, so
`fuel = right - left` at entry always suffices, and the zero-fuel arm is
unreachable from `binSearch`).  Returns the final `left` together with the
number of probe calls made. -/
def binSearchGo (p : Nat → Bool) : Nat → Nat → Nat → Nat × Nat
  | 0, left, _ => (left, 0)
  | fuel + 1, left, right =>
    if left < right then
      if p ((left + right) / 2) then
        let r := binSearchGo p fuel ((left + right) / 2 + 1) right
        (r.1, r.2 + 1)
      else
        let r := binSearchGo p fuel left ((left + right) / 2)
        (r.1, r.2 + 1)
    else (left, 0)

/-- The binary-search loop, entered with exactly enough fuel for its
decreasing measure `right - left`. -/
def binSearch (p : Nat → Bool) (left right : Nat) : Nat × Nat :=
  binSearchGo p (right - left) left right

/-- The exponential phase of `find_total_posts` (`core.py` 46-49):
`low, high = guess, guess*2; while valid(high): low, high = high, high*2`.
The loop is fuelled because it only terminates when the probe eventually
turns false; `none` models fuel exhaustion.  Returns the final
`(low, high)` and the number of probe calls made. -/
def expoPhase (p : Nat → Bool) : Nat → Nat → Nat → Option ((Nat × Nat) × Nat)
  | 0, _, _ => none
  | fuel + 1, low, high =>
    if p high then
      match expoPhase p fuel high (high * 2) with
      | some (lohi, c) => some (lohi, c + 1)
      | none => none
    else
      some ((low, high), 1)

/-- The search skeleton of `find_total_posts` over an abstract probe,
returning the count together with the total number of probe calls
(`none` models a doubling loop that was not given enough fuel). -/
def find_total_core (p : Nat → Bool) (fuel : Nat) : Option (Nat × Nat) :=
  if p 1 = false then some (0, 1)
  else
    let guess := 16
    if p guess then
      match expoPhase p fuel guess (guess * 2) with
      | some ((low, high), c) =>
        match binSearch p (low + 1) high with
        | (left, bc) => some (left - 1, (2 + c) + bc)
      | none => none
    else
      match binSearch p 2 guess with
      | (left, bc) => some (left - 1, 2 + bc)

/-- `find_total_posts` (`core.py` 33-60): exponential-then-binary search over
the existence probe for the channel. -/
def find_total_posts (remote : Remote) (channel : Option String) (date : String)
    (fuel : Nat) : Option (Nat × Nat) :=
  find_total_core (valid remote channel date) fuel

/-! ### List-Cache (`core.py` 62-83) -/

/-- Address of the list-cache page for a `(channel, start, end)` key:
`generate_url(f"list{channel or ''}-{start}-{end}", 1)`. -/
def listUrl (channel : Option String) (s e : Nat) (date : String) : String :=
  generate_url ("list" ++ channel.getD "" ++ "-" ++ toString s ++ "-" ++ toString e) 1 date

/-- `read_cache` (`core.py` 62-74).  The fetch itself is NOT guarded, so a
missing page propagates as an error; the JSON decoding is guarded: the code
tries the `content` field then the `description` field, skipping a field that
is absent or fails to parse, and returns `[]` when both fail.  `dec` models
`json.loads` specialised to a list of posts (`none` models a raised
`JSONDecodeError` or a missing nested field). -/
def read_cache (dec : String → Option (List Post)) (remote : Remote)
    (channel : Option String) (s e : Nat) (date : String) : Except FetchError (List Post) :=
  match remote (listUrl channel s e date) with
  | .error err => .error err
  | .ok page =>
    match page.content.bind dec with
    | some posts => .ok posts
    | none =>
      match page.description.bind dec with
      | some posts => .ok posts
      | none => .ok []

/-- `save_cache` (`core.py` 76-83) together with the Remote Page Store's
filing rule.  Modelled from the spec: the store itself is not part of this
repository; per the spec the created page (title `rnwlist{channel}-{start}-{end}`)
is filed under the address the Naming Scheme derives for that title at index 1
(the first page of the day for that key).  The success case is modelled; the
caller (`readlist_stream`) swallows save failures, so a failing save leaves
the returned feed unchanged. -/
def save_cache (enc : List Post → String) (remote : Remote) (channel : Option String)
    (s e : Nat) (posts : List Post) (date : String) : Remote :=
  fun url =>
    if url = listUrl channel s e date then
      .ok { author_name := none, description := none, content := some (enc posts) }
    else remote url

/-! ### Feed assembler (`core.py` 85-137) -/

/-- `read` (`core.py` 30-31): fetch the post page for `(channel, index)`. -/
def read (remote : Remote) (channel : Option String) (date : String) (i : Nat) :
    Except FetchError Page :=
  remote (postUrl channel i date)

/-- One slow-path iteration of `readlist_stream` (`core.py` 108-118): fetch
post `i`; a fetch failure or a missing/empty `description` yields `none`
(the index is skipped), otherwise the feed entry
`{"name": author_name or "Anonymous", "content": description}`. -/
def fetchPost (remote : Remote) (channel : Option String) (date : String) (i : Nat) :
    Option Post :=
  match read remote channel date i with
  | .error _ => none
  | .ok page =>
    match page.description with
    | some d => some { name := page.author_name.getD "Anonymous", content := d }
    | none => none

/-- The index sequence `range(end, start - 1, -1)` of the slow path:
`[e, e-1, ..., s]` (empty when `e < s`; the callers always pass `1 ≤ s`). -/
def descRange (e s : Nat) : List Nat :=
  (List.range (e + 1 - s)).map (fun k => e - k)

/-- The slow-path accumulation loop of `readlist_stream` (`core.py` 106-125):
visit the given indices in order, skip failures, collect successes in visit
order. -/
def slowLoop (remote : Remote) (channel : Option String) (date : String) :
    List Nat → List Post
  | [] => []
  | i :: rest =>
    match fetchPost remote channel date i with
    | some p => p :: slowLoop remote channel date rest
    | none => slowLoop remote channel date rest

/-- `readlist_stream` (`core.py` 85-133), drained to a list (the streaming
`yield`s produce exactly the accumulated list, in order).  Returns the feed
together with the resulting store (the slow path writes the cache page when it
accumulated anything).  `none` models a doubling loop in
`find_total_posts` that was not given enough fuel. -/
def readlist_stream (dec : String → Option (List Post)) (enc : List Post → String)
    (remote : Remote) (channel : Option String) (date : String) (fuel : Nat)
    (pageNo pageSize : Nat) : Option (List Post × Remote) :=
  match find_total_posts remote channel date fuel with
  | none => none
  | some (total, _) =>
    let e : Int := (total : Int) - ((pageNo : Int) - 1) * (pageSize : Int)
    let s : Int := max 1 (e - (pageSize : Int) + 1)
    if e ≤ 0 then some ([], remote)
    else
      match read_cache dec remote channel s.toNat e.toNat date with
      | .ok (p :: ps) => some (p :: ps, remote)
      | _ =>
        let posts := slowLoop remote channel date (descRange e.toNat s.toNat)
        if posts.isEmpty then some (posts, remote)
        else some (posts, save_cache enc remote channel s.toNat e.toNat posts date)

/-! ### Writing (`core.py` 11-28, `telegraph.py` 83-105 and 177-212) -/

/-- The mutable client state of `TelegraphAPI`: the credential. -/
structure TelegraphAPI where
  access_token : Option String
deriving DecidableEq, Repr

/-- Failure modes of the write path: the local credential check of
`create_page` (`raise TelegraphException("access_token is required")`), or an
error reported by the remote endpoint (API error / network error). -/
inductive WriteError
  | credentialMissing
  | remoteError (msg : String)
deriving DecidableEq, Repr

/-- The remote endpoints the write path consumes (external collaborator):
`createAccount` returns the fresh token (if the response carried one), and
`createPage token title content` returns the created page or fails (e.g.
because the token is invalid). -/
structure WriteEnv where
  createAccountResult : Except WriteError (Option String)
  createPageResult : String → String → String → Except WriteError Page

/-- `create_account` (`core.py` 11-12 and `telegraph.py` 83-105): on success
the client adopts the returned token (`result.get("access_token",
self.access_token)`); a request failure propagates. -/
def create_account (env : WriteEnv) (api : TelegraphAPI) : Except WriteError TelegraphAPI :=
  match env.createAccountResult with
  | .error e => .error e
  | .ok tok =>
    .ok { access_token := match tok with | some t => some t | none => api.access_token }

/-- `create_page` (`telegraph.py` 177-212): raises when no token is available,
otherwise performs the remote request with the token. -/
def create_page (env : WriteEnv) (api : TelegraphAPI) (title content : String) :
    Except WriteError Page :=
  match api.access_token with
  | none => .error .credentialMissing
  | some tok => env.createPageResult tok title content

/-- `write` (`core.py` 19-28): ensure an account, then create the post page
titled `rnwpost{channel or ''}` holding the content.  No guard of any kind is
applied to `content`, and no exception is caught. -/
def write (env : WriteEnv) (api : TelegraphAPI) (content : String)
    (channel : Option String) : Except WriteError Page :=
  match create_account env api with
  | .error e => .error e
  | .ok api2 => create_page env api2 ("rnwpost" ++ channel.getD "") content

/-- The send guard of the interactive layer (`rnw.py` 246-248): after joining
and stripping the typed lines, `write` is invoked only `if content:`; the
argument here is the already-stripped content, and `none` models "nothing was
sent". -/
def write_message (env : WriteEnv) (api : TelegraphAPI) (content : String)
    (channel : Option String) : Option (Except WriteError Page) :=
  if content ≠ "" then some (write env api content channel) else none

/-! ### Concrete fixtures used by the closed witness theorems -/

/-- A remote store with no pages at all. -/
def remoteEmpty : Remote := fun _ => .error .notFound

/-- A remote store that fails with a network error everywhere. -/
def remoteDown : Remote := fun _ => .error .networkError

/-- A fixed date used by the concrete fixtures. -/
def date0 : String := "06-01"

/-- A concrete post page. -/
def pageA : Page := { author_name := some "alice", description := some "hi", content := none }

/-- A post page with no readable content (`description` absent/empty). -/
def pageB : Page := { author_name := some "bob", description := none, content := none }

/-- A remote store holding exactly the single post page 1 of the global
channel. -/
def remote1 : Remote := fun url =>
  if url = postUrl none 1 date0 then .ok pageA else .error .notFound

/-- A remote store holding exactly the dense post pages 1, 2, 3 of the global
channel (page 2 lacking readable content). -/
def remote3 : Remote := fun url =>
  if url = postUrl none 1 date0 then .ok pageA
  else if url = postUrl none 2 date0 then .ok pageB
  else if url = postUrl none 3 date0 then .ok pageA
  else .error .notFound

/-- A decoder that never parses (models `json.loads` failing). -/
def decNone : String → Option (List Post) := fun _ => none

/-- An encoder fixture. -/
def encJ : List Post → String := fun _ => "J"

/-- A one-post payload fixture. -/
def posts1 : List Post := [{ name := "alice", content := "hi" }]

/-- A decoder fixture inverting `encJ` on `posts1`. -/
def decJ : String → Option (List Post) := fun s => if s = "J" then some posts1 else none

/-- A write environment whose remote accepts everything. -/
def envOk : WriteEnv :=
  { createAccountResult := .ok (some "tok")
    createPageResult := fun _ _ _ => .ok pageA }

/-- A write environment whose page-creation endpoint rejects the credential. -/
def envBadToken : WriteEnv :=
  { createAccountResult := .ok (some "tok")
    createPageResult := fun _ _ _ => .error (.remoteError "ACCESS_TOKEN_INVALID") }

/-- A client with no credential yet. -/
def apiFresh : TelegraphAPI := { access_token := none }

/-! ## Helper lemmas -/

theorem quoteList_append (a b : List Char) :
    quoteList (a ++ b) = quoteList a ++ quoteList b := by
  induction a with
  | nil => rfl
  | cons c cs ih => simp [quoteList, ih]

theorem quote_data (s : String) : (quote s).data = quoteList s.data := rfl

/-- An index above 1 never derives the suffix-free address of index 1: the
suffixed address is strictly longer. -/
theorem generate_url_ne_of_index_gt_one (type_name date : String) (index : Nat)
    (h : 1 < index) :
    generate_url type_name index date ≠ generate_url type_name 1 date := by
  intro hcon
  have hlen := congrArg String.length hcon
  have hdash : ("-" : String).length = 1 := rfl
  simp only [generate_url, gt_iff_lt, if_pos h, if_neg (by omega : ¬ (1 : Nat) < 1),
    String.append_empty, String.length_append, hdash] at hlen
  omega

/-- Correctness of the binary-search loop on a threshold probe: if the probe
is true exactly on `1..n` throughout the scanned window, the window brackets
`n + 1` and the fuel covers the measure `right - left`, the loop converges to
`left = n + 1`. -/
theorem binSearchGo_fst (p : Nat → Bool) (n : Nat) :
    ∀ fuel left right, right - left ≤ fuel → left ≤ n + 1 → n + 1 ≤ right →
      (∀ i, left ≤ i → i < right → (p i = true ↔ i ≤ n)) →
      (binSearchGo p fuel left right).1 = n + 1 := by
  intro fuel
  induction fuel with
  | zero =>
    intro left right hf h1 h2 hp
    simp only [binSearchGo]
    omega
  | succ f ih =>
    intro left right hf h1 h2 hp
    rw [binSearchGo]
    by_cases h : left < right
    · rw [if_pos h]
      have hmlt : (left + right) / 2 < right := Nat.div_lt_of_lt_mul (by omega)
      have hmge : left ≤ (left + right) / 2 :=
        (Nat.le_div_iff_mul_le (by decide)).mpr (by omega)
      by_cases hm : p ((left + right) / 2) = true
      · rw [if_pos hm]
        have hmle : (left + right) / 2 ≤ n := (hp _ hmge hmlt).mp hm
        exact ih _ right (by omega) (by omega) h2 (fun i hi1 hi2 => hp i (by omega) hi2)
      · rw [if_neg hm]
        have hmgt : n < (left + right) / 2 := by
          rcases Nat.lt_or_ge n ((left + right) / 2) with h' | h'
          · exact h'
          · exact absurd ((hp _ hmge hmlt).mpr h') hm
        exact ih left _ (by omega) h1 (by omega) (fun i hi1 hi2 => hp i hi1 (by omega))
    · rw [if_neg h]
      simp only
      omega

/-- Correctness of `binSearch` on a threshold probe. -/
theorem binSearch_fst (p : Nat → Bool) (n left right : Nat)
    (h1 : left ≤ n + 1) (h2 : n + 1 ≤ right)
    (hp : ∀ i, left ≤ i → i < right → (p i = true ↔ i ≤ n)) :
    (binSearch p left right).1 = n + 1 :=
  binSearchGo_fst p n (right - left) left right (le_refl _) h1 h2 hp

/-- The fuel of `binSearchGo` is invisible once it covers the loop's
decreasing measure `right - left`: the fuelled loop computes exactly what the
source's unguarded `while` loop computes. -/
theorem binSearchGo_fuel_stable (p : Nat → Bool) :
    ∀ f g left right, right - left ≤ f → f ≤ g →
      binSearchGo p f left right = binSearchGo p g left right := by
  intro f
  induction f with
  | zero =>
    intro g left right hf hg
    cases g with
    | zero => rfl
    | succ g => simp only [binSearchGo, if_neg (by omega : ¬ left < right)]
  | succ f ih =>
    intro g left right hf hg
    obtain ⟨g, rfl⟩ : ∃ g2, g = g2 + 1 := ⟨g - 1, by omega⟩
    by_cases h : left < right
    · have hmlt : (left + right) / 2 < right := Nat.div_lt_of_lt_mul (by omega)
      have hmge : left ≤ (left + right) / 2 :=
        (Nat.le_div_iff_mul_le (by decide)).mpr (by omega)
      simp only [binSearchGo, if_pos h]
      by_cases hm : p ((left + right) / 2) = true
      · rw [if_pos hm, if_pos hm, ih g _ right (by omega) (by omega)]
      · rw [if_neg hm, if_neg hm, ih g left _ (by omega) (by omega)]
    · simp only [binSearchGo, if_neg h]

/-- On a probe that is true exactly on `1..n` over its 1-based domain, the
doubling loop with enough fuel halts at a bracket `low2 ≤ n < high2`. -/
theorem expoPhase_threshold (p : Nat → Bool) (n : Nat)
    (hp : ∀ i, 1 ≤ i → (p i = true ↔ i ≤ n)) :
    ∀ fuel low high, 1 ≤ fuel → 1 ≤ high → n + 2 ≤ high + fuel → 1 ≤ low → low ≤ n →
      ∃ low2 high2 c, expoPhase p fuel low high = some ((low2, high2), c) ∧
        1 ≤ low2 ∧ low2 ≤ n ∧ n < high2 := by
  intro fuel
  induction fuel with
  | zero => intro low high h1; exact absurd h1 (by decide)
  | succ f ih =>
    intro low high _ hh hfuel hl1 hln
    cases hph : p high with
    | false =>
      have hnh : n < high := by
        by_contra hcon
        push_neg at hcon
        have := (hp high hh).mpr hcon
        rw [hph] at this
        exact Bool.noConfusion this
      exact ⟨low, high, 1, by simp [expoPhase, hph], hl1, hln, hnh⟩
    | true =>
      have hhn : high ≤ n := (hp high hh).mp hph
      have hf1 : 1 ≤ f := by omega
      obtain ⟨l2, h2, c, heq, hx1, hx2, hx3⟩ :=
        ih high (high * 2) hf1 (by omega) (by omega) (by omega) hhn
      exact ⟨l2, h2, c + 1, by simp [expoPhase, hph, heq], hx1, hx2, hx3⟩

/-- On a probe that is false from `N` onward, the doubling loop halts once
given fuel covering `N`. -/
theorem expoPhase_isSome (p : Nat → Bool) (N : Nat)
    (hp : ∀ i, N ≤ i → p i = false) :
    ∀ f low high, 1 ≤ high → N ≤ high + f → (expoPhase p (f + 1) low high).isSome = true := by
  intro f
  induction f with
  | zero =>
    intro low high hh hN
    cases hph : p high with
    | false => simp [expoPhase, hph]
    | true =>
      have hNh : N ≤ high := by omega
      rw [hp high hNh] at hph
      exact Bool.noConfusion hph
  | succ f ih =>
    intro low high hh hN
    cases hph : p high with
    | false => simp [expoPhase, hph]
    | true =>
      have hlt : high < N := by
        by_contra hcon
        push_neg at hcon
        rw [hp high hcon] at hph
        exact Bool.noConfusion hph
      have hrec := ih high (high * 2) (by omega) (by omega)
      cases heq : expoPhase p (f + 1) high (high * 2) with
      | none => rw [heq] at hrec; exact absurd hrec (by simp)
      | some v =>
        obtain ⟨lohi, c⟩ := v
        have hstep : expoPhase p (f + 1 + 1) low high = some (lohi, c + 1) := by
          conv_lhs => rw [expoPhase]
          rw [hph, if_pos rfl, heq]
        rw [hstep]
        rfl

/-- Exact-count correctness of the search skeleton on a probe that is true
exactly on `1..n` over its 1-based domain (the only indices the algorithm
ever queries). -/
theorem find_total_core_exact (p : Nat → Bool) (n fuel : Nat)
    (hp : ∀ i, 1 ≤ i → (p i = true ↔ i ≤ n)) (hfuel : n + 1 ≤ fuel) :
    Option.map Prod.fst (find_total_core p fuel) = some n := by
  rcases Nat.eq_zero_or_pos n with hn | hn
  · subst hn
    have h1 : p 1 = false := by
      cases h : p 1 with
      | false => rfl
      | true => exact absurd ((hp 1 (le_refl 1)).mp h) (by decide)
    simp [find_total_core, h1]
  · have h1 : p 1 = true := (hp 1 (le_refl 1)).mpr hn
    cases h16 : p 16 with
    | true =>
      have h16n : 16 ≤ n := (hp 16 (by omega)).mp h16
      obtain ⟨l2, h2, c, heq, hl1, hl2, hl3⟩ :=
        expoPhase_threshold p n hp fuel 16 (16 * 2) (by omega) (by omega) (by omega)
          (by omega) h16n
      have hb : (binSearch p (l2 + 1) h2).1 = n + 1 :=
        binSearch_fst p n (l2 + 1) h2 (by omega) (by omega)
          (fun i hi1 hi2 => hp i (by omega))
      simp [find_total_core, h1, h16, heq, hb]
    | false =>
      have h16n : n < 16 := by
        by_contra hcon
        push_neg at hcon
        have := (hp 16 (by omega)).mpr hcon
        rw [h16] at this
        exact Bool.noConfusion this
      have hb : (binSearch p 2 16).1 = n + 1 :=
        binSearch_fst p n 2 16 (by omega) (by omega)
          (fun i hi1 hi2 => hp i (by omega))
      simp [find_total_core, h1, h16, hb]

theorem slowLoop_eq_filterMap (remote : Remote) (channel : Option String) (date : String)
    (L : List Nat) :
    slowLoop remote channel date L = L.filterMap (fetchPost remote channel date) := by
  induction L with
  | nil => rfl
  | cons i rest ih =>
    cases hf : fetchPost remote channel date i <;> simp [slowLoop, hf, ih]

theorem length_filterMap_eq_length_filter {α β : Type} (f : α → Option β) (L : List α) :
    (L.filterMap f).length = (L.filter (fun a => (f a).isSome)).length := by
  induction L with
  | nil => rfl
  | cons a rest ih => cases hf : f a <;> simp [hf, ih]

/-- Counting a filter when exactly one listed element fails the predicate. -/
theorem length_filter_one_failure {α : Type} [DecidableEq α]
    (q : α → Bool) (L : List α) (j : α)
    (hnd : L.Nodup) (hj : j ∈ L) (hjf : q j = false)
    (hrest : ∀ i ∈ L, i ≠ j → q i = true) :
    (L.filter q).length + 1 = L.length := by
  induction L with
  | nil => cases hj
  | cons a rest ih =>
    rcases List.mem_cons.mp hj with heq | hmem
    · subst heq
      have hnotmem : j ∉ rest := (List.nodup_cons.mp hnd).1
      have hall : ∀ i ∈ rest, q i = true := fun i hi =>
        hrest i (List.mem_cons_of_mem _ hi) (fun hij => hnotmem (hij ▸ hi))
      rw [List.filter_cons, if_neg (by simp [hjf])]
      rw [List.filter_eq_self.mpr hall]
      simp
    · have ha : q a = true := by
        refine hrest a (List.mem_cons_self a rest) ?_
        intro haj
        exact (List.nodup_cons.mp hnd).1 (haj ▸ hmem)
      rw [List.filter_cons, if_pos (by simp [ha])]
      have := ih (List.nodup_cons.mp hnd).2 hmem
        (fun i hi hij => hrest i (List.mem_cons_of_mem _ hi) hij)
      simp only [List.length_cons]
      omega

theorem descRange_length (e s : Nat) : (descRange e s).length = e + 1 - s := by
  simp [descRange]

theorem mem_descRange {e s i : Nat} (hse : s ≤ e) :
    i ∈ descRange e s ↔ s ≤ i ∧ i ≤ e := by
  simp only [descRange, List.mem_map, List.mem_range]
  constructor
  · rintro ⟨k, hk, rfl⟩
    omega
  · rintro ⟨h1, h2⟩
    exact ⟨e - i, by omega, by omega⟩

theorem descRange_nodup (e s : Nat) : (descRange e s).Nodup := by
  refine List.Nodup.map_on ?_ (List.nodup_range _)
  intro a ha b hb hab
  simp only [List.mem_range] at ha hb
  omega

/-- Distinct `(start, end)` keys derive distinct cache addresses: the `(5, 8)`
and `(5, 9)` list-cache pages live at different URLs, for every channel and
date. -/
theorem listUrl_key_ne (channel : Option String) (date : String) :
    listUrl channel 5 8 date ≠ listUrl channel 5 9 date := by
  intro hcon
  have hd := congrArg String.data hcon
  simp only [listUrl, generate_url, show ¬(1 > 1) by omega, if_neg, ite_false,
    String.append_empty, String.data_append, quote_data] at hd
  simp only [String.data_append, quoteList_append] at hd
  have h8 : quoteList (toString (8 : Nat)).data = ['8'] := by decide
  have h9 : quoteList (toString (9 : Nat)).data = ['9'] := by decide
  have h5 : quoteList (toString (5 : Nat)).data = ['5'] := by decide
  have hdash : quoteList ("-" : String).data = ['-'] := by decide
  rw [h8, h9, h5, hdash] at hd
  simp only [List.append_assoc] at hd
  simp at hd

/-! ## Claim theorems -/

/-- C1: for every channel and every n ≥ 0, if the existence probe succeeds
exactly for the contiguous indices 1..n of its 1-based domain (posts densely
numbered from 1 with no gaps; the algorithm only ever probes indices ≥ 1),
then `find_total_posts` returns exactly n (once the doubling loop is given
enough fuel, cf. the termination claim). -/
theorem find_total_posts_exact (remote : Remote) (channel : Option String)
    (date : String) (n fuel : Nat)
    (hp : ∀ i, 1 ≤ i → (valid remote channel date i = true ↔ i ≤ n))
    (hfuel : n + 1 ≤ fuel) :
    Option.map Prod.fst (find_total_posts remote channel date fuel) = some n :=
  find_total_core_exact (valid remote channel date) n fuel hp hfuel

theorem find_total_posts_exact_witness :
    Option.map Prod.fst (find_total_posts remote1 none date0 2) = some 1 :=
  find_total_posts_exact remote1 none date0 1 2
    (by
      intro i hi
      constructor
      · intro hv
        by_contra hgt
        push_neg at hgt
        have hne : postUrl none i date0 ≠ postUrl none 1 date0 :=
          generate_url_ne_of_index_gt_one ("post" ++ (none : Option String).getD "")
            date0 i hgt
        simp [valid, remote1, hne] at hv
      · intro hle
        have hi1 : i = 1 := le_antisymm hle hi
        subst hi1
        rfl)
    (by omega)

/-- C2: the existence probe returns true iff fetching the post page for
(channel, index) succeeds, returns false on any failure (not-found, network
error, malformed response), and — being a total Bool-valued function — never
raises to its caller. -/
theorem valid_iff_fetch (remote : Remote) (channel : Option String) (date : String)
    (i : Nat) :
    (valid remote channel date i = true ↔
      ∃ p, remote (postUrl channel i date) = .ok p)
    ∧ (∀ err, remote (postUrl channel i date) = .error err →
        valid remote channel date i = false) := by
  constructor
  · constructor
    · intro h
      cases hr : remote (postUrl channel i date) with
      | ok p => exact ⟨p, rfl⟩
      | error e => rw [valid, hr] at h; exact Bool.noConfusion h
    · rintro ⟨p, hp⟩
      rw [valid, hp]
  · intro err herr
    rw [valid, herr]

theorem valid_iff_fetch_witness :
    valid remoteDown none date0 1 = false :=
  (valid_iff_fetch remoteDown none date0 1).2 FetchError.networkError rfl

/-- C8: for every channel whose index 1 does not exist, `find_total_posts`
returns 0 having performed exactly one existence-probe call. -/
theorem find_total_posts_empty_channel (remote : Remote) (channel : Option String)
    (date : String) (fuel : Nat)
    (h : valid remote channel date 1 = false) :
    find_total_posts remote channel date fuel = some (0, 1) := by
  simp [find_total_posts, find_total_core, h]

theorem find_total_posts_empty_channel_witness :
    find_total_posts remoteDown none date0 1 = some (0, 1) :=
  find_total_posts_empty_channel remoteDown none date0 1 rfl

/-- C9: `generate_url`, for every kind/channel label, index and fixed current
UTC date, appends the suffix `-{index}` exactly when index > 1 (index 1
produces no suffix), percent-escapes the label but not the date or the
suffix, and is a pure deterministic function of its inputs and the date. -/
theorem generate_url_spec (type_name date : String) (index : Nat) :
    (1 < index →
      generate_url type_name index date =
        "rnw" ++ quote type_name ++ "-" ++ date ++ ("-" ++ toString index))
    ∧ (index ≤ 1 →
      generate_url type_name index date = "rnw" ++ quote type_name ++ "-" ++ date)
    ∧ (1 < index →
      generate_url type_name index date =
        generate_url type_name 1 date ++ ("-" ++ toString index)) := by
  refine ⟨?_, ?_, ?_⟩
  · intro h
    simp only [generate_url, gt_iff_lt, if_pos h]
  · intro h
    simp only [generate_url, gt_iff_lt, if_neg (by omega : ¬ 1 < index),
      String.append_empty]
  · intro h
    simp only [generate_url, gt_iff_lt, if_pos h, if_neg (by omega : ¬ (1 : Nat) < 1),
      String.append_empty]

theorem generate_url_spec_witness :
    generate_url "a b" 2 "10-12" = generate_url "a b" 1 "10-12" ++ ("-" ++ toString 2) :=
  (generate_url_spec "a b" "10-12" 2).2.2 (by omega)

/-- C10: `find_total_posts` terminates for every channel whose existence
probe is false from some index `N` onward (in particular whenever only
finitely many posts exist): any fuel beyond `N` makes the doubling loop exit,
and the binary search is structurally terminating, so the search yields a
result. -/
theorem find_total_posts_terminates (remote : Remote) (channel : Option String)
    (date : String) (N : Nat)
    (hp : ∀ i, N ≤ i → valid remote channel date i = false)
    (fuel : Nat) (hfuel : N + 1 ≤ fuel) :
    (find_total_posts remote channel date fuel).isSome = true := by
  cases h1 : valid remote channel date 1 with
  | false => simp [find_total_posts, find_total_core, h1]
  | true =>
    cases h16 : valid remote channel date 16 with
    | false => simp [find_total_posts, find_total_core, h1, h16]
    | true =>
      obtain ⟨f, rfl⟩ : ∃ f, fuel = f + 1 := ⟨fuel - 1, by omega⟩
      have hs := expoPhase_isSome (valid remote channel date) N hp f 16 (16 * 2)
        (by omega) (by omega)
      cases heq : expoPhase (valid remote channel date) (f + 1) 16 (16 * 2) with
      | none => rw [heq] at hs; exact absurd hs (by simp)
      | some v =>
        obtain ⟨⟨low, high⟩, c⟩ := v
        simp [find_total_posts, find_total_core, h1, h16, heq]

theorem find_total_posts_terminates_witness :
    (find_total_posts remoteEmpty none date0 2).isSome = true :=
  find_total_posts_terminates remoteEmpty none date0 1 (fun i _ => rfl) 2 (by omega)

/-- C3: for every channel, pageNo ≥ 1 and pageSize ≥ 1, the feed assembler
computes its window as `end = total - (pageNo-1)*pageSize` and
`start = max(1, end - pageSize + 1)`, and returns the empty sequence whenever
`end ≤ 0`; the witness instantiates the particular case
`feed(c, pageNo=2, pageSize=10)` on a channel with exactly 3 posts. -/
theorem readlist_stream_empty_past_end (dec : String → Option (List Post))
    (enc : List Post → String) (remote : Remote) (channel : Option String)
    (date : String) (fuel pageNo pageSize total c : Nat)
    (hpn : 1 ≤ pageNo) (hps : 1 ≤ pageSize)
    (htot : find_total_posts remote channel date fuel = some (total, c))
    (hend : (total : Int) - ((pageNo : Int) - 1) * (pageSize : Int) ≤ 0) :
    readlist_stream dec enc remote channel date fuel pageNo pageSize
      = some ([], remote) := by
  simp only [readlist_stream, htot]
  rw [if_pos hend]

theorem readlist_stream_empty_past_end_witness :
    readlist_stream decNone encJ remote3 none date0 1 2 10 = some ([], remote3) :=
  readlist_stream_empty_past_end decNone encJ remote3 none date0 1 2 10 3 6
    (by omega) (by omega) rfl (by decide)

/-- C4: on a cache miss, the slow path of the feed assembler visits the
window `end` down to `start` in descending order, skips (without aborting)
every index whose fetch fails or whose page lacks readable content, and
accumulates the successes in visit order; hence if exactly one index in the
requested window fails, the returned feed has exactly one fewer post than the
window length (`end - start + 1`), not an aborted or empty feed. -/
theorem readlist_stream_skips_failed_index (dec : String → Option (List Post))
    (enc : List Post → String) (remote : Remote) (channel : Option String)
    (date : String) (fuel pageNo pageSize total c : Nat) (e s : Int)
    (hpn : 1 ≤ pageNo) (hps : 1 ≤ pageSize)
    (htot : find_total_posts remote channel date fuel = some (total, c))
    (he : e = (total : Int) - ((pageNo : Int) - 1) * (pageSize : Int))
    (hs : s = max 1 (e - (pageSize : Int) + 1))
    (hpos : 0 < e)
    (hmiss : read_cache dec remote channel s.toNat e.toNat date = .ok [] ∨
      ∃ err, read_cache dec remote channel s.toNat e.toNat date = .error err)
    (j : Nat) (hj1 : s.toNat ≤ j) (hj2 : j ≤ e.toNat)
    (hjfail : fetchPost remote channel date j = none)
    (hrest : ∀ i, s.toNat ≤ i → i ≤ e.toNat → i ≠ j →
      (fetchPost remote channel date i).isSome = true) :
    ∃ l rem,
      readlist_stream dec enc remote channel date fuel pageNo pageSize = some (l, rem)
      ∧ l.length = e.toNat - s.toNat := by
  have hse : s ≤ e := by
    rw [hs]
    apply max_le
    · omega
    · omega
  have hs1 : (1 : Int) ≤ s := by rw [hs]; exact le_max_left _ _
  have hsen : s.toNat ≤ e.toNat := Int.toNat_le_toNat hse
  have hjmem : j ∈ descRange e.toNat s.toNat := (mem_descRange hsen).mpr ⟨hj1, hj2⟩
  have hq := length_filter_one_failure
    (fun a => (fetchPost remote channel date a).isSome)
    (descRange e.toNat s.toNat) j (descRange_nodup _ _) hjmem
    (by simp [hjfail])
    (fun i hi hij =>
      hrest i ((mem_descRange hsen).mp hi).1 ((mem_descRange hsen).mp hi).2 hij)
  have hlen : (slowLoop remote channel date (descRange e.toNat s.toNat)).length
      = e.toNat - s.toNat := by
    rw [slowLoop_eq_filterMap, length_filterMap_eq_length_filter]
    rw [descRange_length] at hq
    omega
  simp only [readlist_stream, htot]
  rw [← he, ← hs, if_neg (by omega : ¬ e ≤ 0)]
  rcases hmiss with hm | ⟨err, hm⟩ <;> rw [hm] <;> simp only
  · cases hE : (slowLoop remote channel date (descRange e.toNat s.toNat)).isEmpty with
    | true => exact ⟨_, remote, by simp [hE], hlen⟩
    | false =>
      exact ⟨_, save_cache enc remote channel s.toNat e.toNat
        (slowLoop remote channel date (descRange e.toNat s.toNat)) date,
        by simp [hE], hlen⟩
  · cases hE : (slowLoop remote channel date (descRange e.toNat s.toNat)).isEmpty with
    | true => exact ⟨_, remote, by simp [hE], hlen⟩
    | false =>
      exact ⟨_, save_cache enc remote channel s.toNat e.toNat
        (slowLoop remote channel date (descRange e.toNat s.toNat)) date,
        by simp [hE], hlen⟩

theorem readlist_stream_skips_failed_index_witness :
    ∃ l rem, readlist_stream decNone encJ remote3 none date0 1 1 10 = some (l, rem)
      ∧ l.length = 2 :=
  readlist_stream_skips_failed_index decNone encJ remote3 none date0 1 1 10 3 6 3 1
    (by omega) (by omega) rfl (by decide) (by decide) (by decide)
    (Or.inr ⟨FetchError.notFound, rfl⟩) 2 (by decide) (by decide) rfl
    (by
      intro i h1 h3 hne
      have h1a : 1 ≤ i := h1
      have h3a : i ≤ 3 := h3
      interval_cases i
      · decide
      · exact absurd rfl hne
      · decide)

/-- C5: List-Cache round-trip with exact-key matching: after
`save_cache(c, 5, 9, posts)` with no intervening corruption of the stored
page, `read_cache(c, 5, 9)` returns the identical ordered sequence of posts
that was written (whenever the serializer round-trips), and
`read_cache(c, 5, 8)` — a different (channel, start, end) key — is entirely
unaffected by that save: it behaves exactly as on the original store, so the
cached entry is never reused for a partially-overlapping key. -/
theorem cache_roundtrip_exact (enc : List Post → String)
    (dec : String → Option (List Post)) (remote : Remote)
    (channel : Option String) (date : String) (posts : List Post)
    (hinv : dec (enc posts) = some posts) :
    read_cache dec (save_cache enc remote channel 5 9 posts date) channel 5 9 date
      = .ok posts
    ∧ read_cache dec (save_cache enc remote channel 5 9 posts date) channel 5 8 date
      = read_cache dec remote channel 5 8 date := by
  constructor
  · simp [read_cache, save_cache, hinv]
  · have hne := listUrl_key_ne channel date
    simp [read_cache, save_cache, if_neg hne]

theorem cache_roundtrip_exact_witness :
    read_cache decJ (save_cache encJ remoteEmpty none 5 9 posts1 date0) none 5 9 date0
      = .ok posts1 :=
  (cache_roundtrip_exact encJ decJ remoteEmpty none date0 posts1 rfl).1

/-- C6 counterexample: the claim that `write(content, channel)` with empty
content does not succeed in creating a post — with the non-emptiness
requirement enforced by the core operation itself — is false on the code:
`write` applies no emptiness check, and with a remote that accepts the
request, an empty-content write succeeds in creating a page. -/
theorem write_empty_succeeds : write envOk apiFresh "" none = .ok pageA := rfl

/-- C6 amended: the non-emptiness requirement is enforced by the interactive
collaborator layer (rnw.py refuses to send stripped-empty content), not by
the core `write` operation: `write_message` with empty content sends nothing,
while core `write` with empty content proceeds and succeeds in creating a
post whenever the account step and the remote page creation accept it. -/
theorem write_emptiness_guard (env : WriteEnv) (api : TelegraphAPI)
    (channel : Option String) :
    write_message env api "" channel = none
    ∧ ∀ tok page, env.createAccountResult = .ok (some tok) →
        env.createPageResult tok ("rnwpost" ++ channel.getD "") "" = .ok page →
        write env api "" channel = .ok page := by
  constructor
  · simp [write_message]
  · intro tok page hacc hpage
    simp [write, create_account, hacc, create_page, hpage]

theorem write_emptiness_guard_witness :
    write_message envOk apiFresh "" none = none
    ∧ write envOk apiFresh "" none = .ok pageA :=
  ⟨(write_emptiness_guard envOk apiFresh none).1,
   (write_emptiness_guard envOk apiFresh none).2 "tok" pageA rfl rfl⟩

/-- C7: a credential failure during write propagates to the caller: when the
account step succeeded, a missing credential raises the local
`access_token is required` error, and a remote rejection of the credential by
the page-creation endpoint is returned unchanged — `write` swallows neither,
so a write never fails silently. -/
theorem write_propagates_credential_failure (env : WriteEnv) (api : TelegraphAPI)
    (content : String) (channel : Option String) (api2 : TelegraphAPI)
    (hacc : create_account env api = .ok api2) :
    (api2.access_token = none →
      write env api content channel = .error .credentialMissing)
    ∧ ∀ tok e, api2.access_token = some tok →
        env.createPageResult tok ("rnwpost" ++ channel.getD "") content = .error e →
        write env api content channel = .error e := by
  constructor
  · intro hnone
    simp [write, hacc, create_page, hnone]
  · intro tok e htok hfail
    simp [write, hacc, create_page, htok, hfail]

theorem write_propagates_credential_failure_witness :
    write envBadToken apiFresh "hello" none
      = .error (.remoteError "ACCESS_TOKEN_INVALID") :=
  (write_propagates_credential_failure envBadToken apiFresh "hello" none
    { access_token := some "tok" } rfl).2 "tok"
    (.remoteError "ACCESS_TOKEN_INVALID") rfl rfl

end Rnw
